import Mathlib

/-!
# Verification of the digibikemobile match simulation

Shallow embedding of the server-authoritative tick simulation found in
`src/rooms/MatchRooms.js` (colyseus variant, `MatchRoom._tick`) and
`src/server.js` (socket.io variant, `tick`), together with proofs of the
testable properties stated in the specification.

Modelling notes:
* In `MatchRooms.js` every position is an integer for the whole match:
  spawn positions are `Math.round`ed, movement adds/subtracts the integer
  speed 4, and the clamp bounds are the integers 0, 1200, 800.  Trail
  points are `Math.round`ed on push.  Positions are therefore modelled as
  `Int` and the `Math.round` calls are identities.
* `Math.abs` of an integer difference is modelled as `Int.natAbs`.
* `Math.floor(x / 6)` on an `Int` is modelled as `Int.fdiv x 6`.
* The only randomness on the tick path of `MatchRooms.js` is the fresh
  `decisionCooldown = randInt(200,700)` drawn when a bot re-decides; it is
  modelled as an oracle parameter `rnd : String → Int` (one per tick for
  multi-tick runs), quantified universally in every theorem.
* JavaScript objects iterate in insertion order, so the `players` map is
  modelled as a `List Player`; the map key of an entry always equals its
  `id` field in the source.
-/

namespace Digibike

/-- Cardinal heading, `dir ∈ {'up','down','left','right'}` in the source. -/
inductive Dir where
  | up | down | left | right
deriving DecidableEq, Repr

/-- A trail point, `{ x: Math.round(p.x), y: Math.round(p.y) }`. -/
structure Pt where
  x : Int
  y : Int
deriving DecidableEq, Repr

/-- A player record (human or bot), as created in `onJoin` / `startMatch` of
`MatchRooms.js` (and `makePlayerObj` of `server.js`). -/
structure Player where
  id : String
  name : String
  color : String
  x : Int
  y : Int
  dir : Dir
  trail : List Pt
  alive : Bool
  isBot : Bool
  lastDecision : Int
  decisionCooldown : Int
  killer : Option String := none
  disconnected : Bool := false
deriving DecidableEq, Repr

attribute [ext] Player

/-- `PLAY_AREA = { w: 1200, h: 800 }`. -/
def playW : Int := 1200
/-- `PLAY_AREA.h`. -/
def playH : Int := 800
/-- `PLAYER_SPEED = 4`. -/
def speed : Int := 4
/-- `TRAIL_KEEP = 800` (`MatchRooms.js`). -/
def trailKeep : Nat := 800
/-- `TICK_MS = 1000 / 20 = 50`, the `delta` passed to `_tick`. -/
def tickMs : Int := 50

/-- `players[id]` lookup: the first list element whose `id` field matches. -/
def lookupP (ps : List Player) (pid : String) : Option Player :=
  ps.find? (fun p => p.id == pid)

/-! ## Bot decision (`MatchRooms.js` lines 132–168) -/

/-- The cardinal direction list `['up','down','left','right']`. -/
def cardinals : List Dir := [Dir.up, Dir.down, Dir.left, Dir.right]

/-- `nx = p.x + (d==='left' ? -PLAYER_SPEED : d==='right' ? PLAYER_SPEED : 0)`. -/
def projX (p : Player) (d : Dir) : Int :=
  p.x + (if d = Dir.left then -speed else if d = Dir.right then speed else 0)

/-- `ny = p.y + (d==='up' ? -PLAYER_SPEED : d==='down' ? PLAYER_SPEED : 0)`. -/
def projY (p : Player) (d : Dir) : Int :=
  p.y + (if d = Dir.up then -speed else if d = Dir.down then speed else 0)

/-- The trail indices visited by `for (let ti = 0; ti < len; ti += 4)`:
exactly the indices `< len` divisible by 4, in increasing order. -/
def stepIdx (len : Nat) : List Nat :=
  (List.range len).filter (fun i => i % 4 == 0)

/-- Inner danger scan of the bot AI over one player's trail
(`MatchRooms.js` lines 153–162): a point within the 8-unit box is dangerous
unless it is one of the scanning bot's own last 10 trail points. -/
def dangerScan (other : Player) (selfId : String) (nx ny : Int) : Bool :=
  (stepIdx other.trail.length).any (fun ti =>
    match other.trail[ti]? with
    | none => false
    | some t =>
        if (nx - t.x).natAbs < 8 ∧ (ny - t.y).natAbs < 8 then
          -- if it's own trail, skip last few points
          if other.id == selfId ∧ ti ≥ other.trail.length - 10 then false
          else true
        else false)

/-- Outer danger loop over all players (`for (const otherId in this.players)`). -/
def dangerAt (ctx : List Player) (selfId : String) (nx ny : Int) : Bool :=
  ctx.any (fun other => dangerScan other selfId nx ny)

/-- A candidate direction survives the scan: projected one-step position
inside the play area and no dangerous trail match. -/
def qualifies (ctx : List Player) (p : Player) (d : Dir) : Bool :=
  let nx := projX p d
  let ny := projY p d
  if nx < 0 ∨ nx > playW ∨ ny < 0 ∨ ny > playH then false
  else !dangerAt ctx p.id nx ny

/-- The candidate list built by `directions.unshift(p.dir)` on
`['up','down','left','right']`: current heading first, then all four
cardinals (the current one appears again in its fixed place). -/
def candDirs (p : Player) : List Dir := p.dir :: cardinals

/-- `chosen`: the first candidate direction that qualifies. -/
def chooseDir (ctx : List Player) (p : Player) : Option Dir :=
  (candDirs p).find? (qualifies ctx p)

/-- Bot decision step (`MatchRooms.js` lines 132–168): advance the decision
countdown by `delta`; past the cooldown, reset the countdown, draw a fresh
cooldown from the oracle and re-decide the heading. -/
def botStep (rnd : String → Int) (ctx : List Player) (p : Player) : Player :=
  let ld := p.lastDecision + tickMs
  if ld > p.decisionCooldown then
    let p1 := { p with lastDecision := 0, decisionCooldown := rnd p.id }
    match chooseDir ctx p1 with
    | some d => { p1 with dir := d }
    | none => p1
  else { p with lastDecision := ld }

/-! ## Movement phase (`MatchRooms.js` lines 128–184) -/

/-- Move one alive player: bot decision (bots only), translate along the
heading, clamp to the play area, push the rounded position on the trail and
evict the oldest point past `TRAIL_KEEP`. -/
def moveP (rnd : String → Int) (ctx : List Player) (p : Player) : Player :=
  let p1 := if p.isBot then botStep rnd ctx p else p
  let x1 := match p1.dir with
    | Dir.left => p1.x - speed
    | Dir.right => p1.x + speed
    | _ => p1.x
  let y1 := match p1.dir with
    | Dir.up => p1.y - speed
    | Dir.down => p1.y + speed
    | _ => p1.y
  let x2 := max 0 (min playW x1)
  let y2 := max 0 (min playH y1)
  let tr := p1.trail ++ [⟨x2, y2⟩]
  let tr2 := if tr.length > trailKeep then tr.drop 1 else tr
  { p1 with x := x2, y := y2, trail := tr2 }

/-- Sequential in-place iteration of the movement loop: the players before
the cursor have already moved this tick, the current player and the ones
after it have not, and the bot danger scan sees exactly that mixed state
(JavaScript mutates the map in place while iterating). -/
def moveGo (rnd : String → Int) (done : List Player) : List Player → List Player
  | [] => done
  | p :: rest =>
      if p.alive then moveGo rnd (done ++ [moveP rnd (done ++ p :: rest) p]) rest
      else moveGo rnd (done ++ [p]) rest

/-- Phase 1 of `_tick`: the movement loop over all players. -/
def movePhase (rnd : String → Int) (ps : List Player) : List Player :=
  moveGo rnd [] ps

/-! ## Spatial trail index (`MatchRooms.js` lines 186–197) -/

/-- `CELL = 6`. -/
def cell : Int := 6

/-- One occupancy entry `{ ownerId, idx, x, y }`. -/
structure Entry where
  ownerId : String
  idx : Nat
  x : Int
  y : Int
deriving DecidableEq, Repr

/-- The cell key `` `${Math.floor(x/CELL)}|${Math.floor(y/CELL)}` ``,
modelled as the pair of floor quotients (the string encoding is injective
on such pairs). -/
def cellKey (x y : Int) : Int × Int := (Int.fdiv x cell, Int.fdiv y cell)

/-- Index one trail (`for (let i=0;i<p.trail.length;i++)`), tagging each
point with its owner and trail index, starting at index `k`. -/
def entriesOf (pid : String) (k : Nat) : List Pt → List Entry
  | [] => []
  | pt :: rest => ⟨pid, k, pt.x, pt.y⟩ :: entriesOf pid (k + 1) rest

/-- All occupancy entries, in map-insertion order over all players
(dead players' trails included, as in the source). -/
def allEntries (ps : List Player) : List Entry :=
  ps.flatMap (fun p => entriesOf p.id 0 p.trail)

/-- `occupancy.get(key)` for the cell containing `(x, y)`: all indexed
entries sharing that cell key, in insertion order. -/
def bucket (ps : List Player) (x y : Int) : List Entry :=
  (allEntries ps).filter (fun e => decide (cellKey e.x e.y = cellKey x y))

/-! ## Collision phase (`MatchRooms.js` lines 199–219) -/

/-- The body of the bucket loop for one candidate entry `t`: an own entry
with index in the last 10 is skipped (`continue`); otherwise the entry kills
exactly when within 6 units on both axes. -/
def killTest (p : Player) (t : Entry) : Bool :=
  if t.ownerId == p.id ∧ t.idx ≥ max 0 (p.trail.length - 10) then false
  else decide ((p.x - t.x).natAbs < 6) && decide ((p.y - t.y).natAbs < 6)

/-- Collision resolution for one player: look up the player's cell bucket;
the first surviving entry within 6 units marks the player dead and records
the killer's name (`null` if the owner is gone). -/
def collideP (ps : List Player) (p : Player) : Player :=
  if p.alive then
    match (bucket ps p.x p.y).find? (killTest p) with
    | some t => { p with alive := false, killer := (lookupP ps t.ownerId).map (·.name) }
    | none => p
  else p

/-- Phase 3 of `_tick`: the collision loop.  Each player's outcome depends
only on its own pre-phase record and the (immutable this phase) trails and
names, so the in-place loop is a map. -/
def collidePhase (ps : List Player) : List Player :=
  ps.map (collideP ps)

/-- One full state-advancing tick over the player set: movement, index
rebuild and collision resolution (`MatchRooms.js` lines 126–219). -/
def tickPlayers (rnd : String → Int) (ps : List Player) : List Player :=
  collidePhase (movePhase rnd ps)

/-! ## Snapshots and the tick loop (`MatchRooms.js` lines 221–248) -/

/-- `alivePlayers.length`. -/
def aliveCount (ps : List Player) : Nat :=
  (ps.filter (fun p => p.alive)).length

/-- One exported player record of `_exportState` (positions are already
integers, so the `Math.round` calls are identities; `trail.slice(-120)`). -/
structure ExpP where
  id : String
  name : String
  color : String
  x : Int
  y : Int
  dir : Dir
  alive : Bool
  trail : List Pt
  isBot : Bool
deriving DecidableEq, Repr

/-- `_exportState()`. -/
def exportState (ps : List Player) : List ExpP :=
  ps.map (fun p =>
    ⟨p.id, p.name, p.color, p.x, p.y, p.dir, p.alive,
      p.trail.drop (p.trail.length - 120), p.isBot⟩)

/-- A broadcast `"state"` message: exported players plus the terminal flag. -/
structure Snap where
  players : List ExpP
  ended : Bool
deriving DecidableEq, Repr

/-- Loop state of a running match: the player set and whether the interval
timer is still scheduled (`clearInterval` on end). -/
structure MState where
  players : List Player
  running : Bool
deriving DecidableEq, Repr

/-- One scheduled invocation of `_tick`: if the interval was cleared nothing
runs; otherwise advance the players, and either emit the terminal snapshot
and stop the loop (alive count ≤ 1) or emit a non-terminal snapshot. -/
def matchStep (rnd : String → Int) (s : MState) : MState × Option Snap :=
  if s.running then
    let ps := tickPlayers rnd s.players
    if aliveCount ps ≤ 1 then (⟨ps, false⟩, some ⟨exportState ps, true⟩)
    else (⟨ps, true⟩, some ⟨exportState ps, false⟩)
  else (s, none)

/-- The per-tick emissions of `n` scheduled ticks, head first; the oracle
`rnds k` serves tick `k`. -/
def emitTrace (rnds : Nat → String → Int) (s : MState) : Nat → List (Option Snap)
  | 0 => []
  | n + 1 =>
      let r := matchStep (rnds 0) s
      r.2 :: emitTrace (fun k => rnds (k + 1)) r.1 n

/-- `n` unconditional applications of the state-advancing tick, head first. -/
def pureIter (rnds : Nat → String → Int) (ps : List Player) : Nat → List Player
  | 0 => ps
  | n + 1 => pureIter (fun k => rnds (k + 1)) (tickPlayers (rnds 0) ps) n

/-! ## socket.io variant (`src/server.js`) -/

/-- `TRAIL_KEEP = 400` in `server.js`. -/
def sTrailKeep : Nat := 400

/-- `server.js` lines 165–179: move along the heading, clamp each axis with
the four `if`s, push the rounded position, evict past the cap.  (No bot
branch here: this is the piece of the loop body shared by all entities; the
claims citing it concern the clamp.) -/
def serverMove (p : Player) : Player :=
  let x1 := match p.dir with
    | Dir.left => p.x - speed
    | Dir.right => p.x + speed
    | _ => p.x
  let y1 := match p.dir with
    | Dir.up => p.y - speed
    | Dir.down => p.y + speed
    | _ => p.y
  let x2 := if x1 < 0 then 0 else if x1 > playW then playW else x1
  let y2 := if y1 < 0 then 0 else if y1 > playH then playH else y1
  let tr := p.trail ++ [⟨x2, y2⟩]
  let tr2 := if tr.length > sTrailKeep then tr.drop 1 else tr
  { p with x := x2, y := y2, trail := tr2 }

/-- `server.js` lines 208–211: the out-of-bounds check run in the same tick,
after the collision scan — boundary contact is lethal. -/
def serverOob (p : Player) : Player :=
  if p.x ≤ 0 ∨ p.x ≥ playW ∨ p.y ≤ 0 ∨ p.y ≥ playH then { p with alive := false }
  else p

/-- `['up','down','left','right'].includes(dir)` as a parse of the inbound
direction string. -/
def parseDir (s : String) : Option Dir :=
  if s = "up" then some Dir.up
  else if s = "down" then some Dir.down
  else if s = "left" then some Dir.left
  else if s = "right" then some Dir.right
  else none

/-- Point update of the player with the given id. -/
def updateP (ps : List Player) (pid : String) (f : Player → Player) : List Player :=
  ps.map (fun p => if p.id == pid then f p else p)

/-- The `socket.on('turn')` handler (`server.js` lines 69–75): assign the
desired heading only if the issuing entity exists, is alive, and the
direction is one of the four cardinals; otherwise do nothing. -/
def handleTurn (ps : List Player) (sid : String) (d : String) : List Player :=
  match lookupP ps sid with
  | some p =>
      if p.alive then
        match parseDir d with
        | some dd => updateP ps sid (fun q => { q with dir := dd })
        | none => ps
      else ps
  | none => ps

/-!
## General lemmas about the embedding
-/

/-- Two integers whose floor quotients by 6 agree are less than 6 apart. -/
theorem abs_sub_lt_of_fdiv_eq {a b : Int} (h : Int.fdiv a cell = Int.fdiv b cell) :
    (a - b).natAbs < 6 := by
  unfold cell at h
  rw [Int.fdiv_eq_ediv _ (by norm_num), Int.fdiv_eq_ediv _ (by norm_num)] at h
  omega

theorem mem_entriesOf {pid : String} {e : Entry} :
    ∀ {tr : List Pt} {k : Nat}, e ∈ entriesOf pid k tr ↔
      ∃ i pt, tr[i]? = some pt ∧ e = ⟨pid, k + i, pt.x, pt.y⟩ := by
  intro tr
  induction tr with
  | nil => intro k; simp [entriesOf]
  | cons pt rest ih =>
      intro k
      simp only [entriesOf, List.mem_cons, ih]
      constructor
      · rintro (rfl | ⟨i, pt', h1, h2⟩)
        · exact ⟨0, pt, by simp, by simp⟩
        · exact ⟨i + 1, pt', by simpa using h1, by rw [h2]; congr 1; omega⟩
      · rintro ⟨i, pt', h1, h2⟩
        cases i with
        | zero =>
            left
            simp only [List.getElem?_cons_zero, Option.some.injEq] at h1
            rw [h2, h1]
            simp
        | succ j =>
            right
            exact ⟨j, pt', by simpa using h1, by rw [h2]; congr 1; omega⟩

theorem mem_allEntries {ps : List Player} {e : Entry} :
    e ∈ allEntries ps ↔
      ∃ p ∈ ps, ∃ i pt, p.trail[i]? = some pt ∧ e = ⟨p.id, i, pt.x, pt.y⟩ := by
  simp only [allEntries, List.mem_flatMap]
  constructor
  · rintro ⟨p, hp, he⟩
    rcases mem_entriesOf.mp he with ⟨i, pt, h1, h2⟩
    exact ⟨p, hp, i, pt, h1, by simpa using h2⟩
  · rintro ⟨p, hp, i, pt, h1, h2⟩
    exact ⟨p, hp, mem_entriesOf.mpr ⟨i, pt, h1, by simpa using h2⟩⟩

theorem mem_bucket {ps : List Player} {x y : Int} {e : Entry} :
    e ∈ bucket ps x y ↔ e ∈ allEntries ps ∧ cellKey e.x e.y = cellKey x y := by
  simp [bucket, List.mem_filter]

/-- If no occupancy entry passes the kill test, the collision step leaves the
player untouched. -/
theorem collideP_eq_self {ps : List Player} {p : Player}
    (h : ∀ e ∈ allEntries ps, killTest p e = false) : collideP ps p = p := by
  unfold collideP
  have hnone : (bucket ps p.x p.y).find? (killTest p) = none :=
    List.find?_eq_none.mpr fun e he => by
      simp [h e (List.mem_of_mem_filter he)]
  rw [hnone]
  split <;> rfl

/-- If some entry in the player's cell bucket passes the kill test, the
collision step marks an alive player dead. -/
theorem collideP_killed {ps : List Player} {p : Player} (ha : p.alive = true)
    (h : ∃ e ∈ bucket ps p.x p.y, killTest p e = true) :
    (collideP ps p).alive = false := by
  unfold collideP
  have hsome : ((bucket ps p.x p.y).find? (killTest p)).isSome := by
    rw [List.find?_isSome]
    rcases h with ⟨e, he, hk⟩
    exact ⟨e, he, hk⟩
  rcases Option.isSome_iff_exists.mp hsome with ⟨t, ht⟩
  rw [ha, ht]
  simp

/-!
## C2 — post-tick positions lie in the play area
-/

/-- C2: after the per-tick move-and-clamp step of `_tick`, the entity's
position lies in the play-area rectangle `[0, 1200] × [0, 800]`, regardless
of heading and pre-tick position. -/
theorem C2_moveClamp_in_bounds (rnd : String → Int) (ctx : List Player) (p : Player) :
    0 ≤ (moveP rnd ctx p).x ∧ (moveP rnd ctx p).x ≤ playW ∧
    0 ≤ (moveP rnd ctx p).y ∧ (moveP rnd ctx p).y ≤ playH := by
  unfold moveP playW playH
  dsimp only
  refine ⟨?_, ?_, ?_, ?_⟩ <;> omega

/-!
## C5 — clamp does not eliminate, the separate OOB check does
-/

/-- C5: in `server.js`'s tick, the movement step clamps the position into
the play area and never changes the alive flag, while the separate
out-of-bounds check in the same tick marks the entity dead exactly on
boundary contact (`x ≤ 0 ∨ x ≥ 1200 ∨ y ≤ 0 ∨ y ≥ 800`), so an entity
clamped onto the boundary is killed by that check. -/
theorem C5_clamp_vs_oob (p : Player) :
    (0 ≤ (serverMove p).x ∧ (serverMove p).x ≤ playW ∧
     0 ≤ (serverMove p).y ∧ (serverMove p).y ≤ playH ∧
     (serverMove p).alive = p.alive) ∧
    ((serverOob p).alive = false ↔
      (p.x ≤ 0 ∨ p.x ≥ playW ∨ p.y ≤ 0 ∨ p.y ≥ playH ∨ p.alive = false)) ∧
    ((serverOob p).x = p.x ∧ (serverOob p).y = p.y) ∧
    (((serverMove p).x = 0 ∨ (serverMove p).x = playW ∨
      (serverMove p).y = 0 ∨ (serverMove p).y = playH) →
      (serverOob (serverMove p)).alive = false) := by
  have hmove : 0 ≤ (serverMove p).x ∧ (serverMove p).x ≤ playW ∧
      0 ≤ (serverMove p).y ∧ (serverMove p).y ≤ playH ∧
      (serverMove p).alive = p.alive := by
    unfold serverMove playW playH
    dsimp only
    refine ⟨?_, ?_, ?_, ?_, rfl⟩ <;> split <;> omega
  have hoob : ∀ q : Player, (serverOob q).alive = false ↔
      (q.x ≤ 0 ∨ q.x ≥ playW ∨ q.y ≤ 0 ∨ q.y ≥ playH ∨ q.alive = false) := by
    intro q
    unfold serverOob
    split
    · next h => exact iff_of_true rfl (by tauto)
    · next h =>
        push_neg at h
        constructor
        · intro ha
          exact Or.inr (Or.inr (Or.inr (Or.inr ha)))
        · rintro (h1 | h2 | h3 | h4 | h5)
          · omega
          · omega
          · omega
          · omega
          · exact h5
  refine ⟨hmove, hoob p, ?_, ?_⟩
  · unfold serverOob; split <;> simp
  · intro hb
    rw [hoob (serverMove p)]
    unfold playW playH at hb ⊢
    omega

/-!
## C7 — heading-change messages
-/

/-- C7: the `'turn'` handler assigns the requested cardinal direction to the
issuing entity's heading exactly when the entity exists and is alive; a dead
or missing entity, or a non-cardinal direction string, leaves the state
unchanged. -/
theorem C7_turn_handler (ps : List Player) (sid d : String) :
    (∀ p, lookupP ps sid = some p → p.alive = true →
        ∀ dd, parseDir d = some dd →
          handleTurn ps sid d =
            ps.map (fun q => if q.id = sid then { q with dir := dd } else q)) ∧
    (∀ p, lookupP ps sid = some p → p.alive = false → handleTurn ps sid d = ps) ∧
    (parseDir d = none → handleTurn ps sid d = ps) ∧
    (lookupP ps sid = none → handleTurn ps sid d = ps) := by
  refine ⟨?_, ?_, ?_, ?_⟩
  · intro p hp ha dd hd
    simp only [handleTurn, hp, ha, hd, if_true, updateP]
    apply List.map_congr_left
    intro q _
    by_cases h : q.id = sid <;> simp [h]
  · intro p hp ha
    simp [handleTurn, hp, ha]
  · intro hd
    unfold handleTurn
    cases hp : lookupP ps sid with
    | none => rfl
    | some p =>
        rw [hd]
        split <;> simp
  · intro hp
    unfold handleTurn
    rw [hp]

/-- Witness for C7 at a concrete state: a live entity's `turn` message with
direction `"up"` retargets its heading; the same message for a dead entity
is ignored. -/
theorem C7_turn_handler_witness :
    handleTurn [⟨"A", "A", "c", 5, 5, Dir.right, [], true, false, 0, 300, none, false⟩] "A" "up" =
      [⟨"A", "A", "c", 5, 5, Dir.up, [], true, false, 0, 300, none, false⟩] ∧
    handleTurn [⟨"A", "A", "c", 5, 5, Dir.right, [], false, false, 0, 300, none, false⟩] "A" "up" =
      [⟨"A", "A", "c", 5, 5, Dir.right, [], false, false, 0, 300, none, false⟩] := by
  constructor
  · rw [(C7_turn_handler [⟨"A", "A", "c", 5, 5, Dir.right, [], true, false, 0, 300, none, false⟩]
        "A" "up").1 ⟨"A", "A", "c", 5, 5, Dir.right, [], true, false, 0, 300, none, false⟩
        (by decide) rfl Dir.up (by decide)]
    decide
  · exact (C7_turn_handler [⟨"A", "A", "c", 5, 5, Dir.right, [], false, false, 0, 300, none, false⟩]
        "A" "up").2.1 ⟨"A", "A", "c", 5, 5, Dir.right, [], false, false, 0, 300, none, false⟩
        (by decide) rfl

/-!
## C8 — the spatial trail index
-/

/-- C8: the per-tick occupancy index holds exactly the trail points of all
players, each under the cell key `(⌊x/6⌋, ⌊y/6⌋)`, and the collision lookup
for a position returns exactly the indexed entries whose cell key equals
that position's cell key (same-cell lookup, not a radius search). -/
theorem C8_spatial_index (ps : List Player) (x y : Int) (e : Entry) :
    (e ∈ allEntries ps ↔
      ∃ p ∈ ps, ∃ i pt, p.trail[i]? = some pt ∧ e = ⟨p.id, i, pt.x, pt.y⟩) ∧
    (e ∈ bucket ps x y ↔ e ∈ allEntries ps ∧ cellKey e.x e.y = cellKey x y) ∧
    cellKey x y = (Int.fdiv x 6, Int.fdiv y 6) := by
  exact ⟨mem_allEntries, mem_bucket, rfl⟩

/-!
## C10 — the bot danger scan
-/

/-- The inner scan of one trail matches iff some point at a stride-4 index
is within the 8-unit box and is not an own grace-window point. -/
theorem dangerScan_iff {other : Player} {selfId : String} {nx ny : Int} :
    dangerScan other selfId nx ny = true ↔
      ∃ ti pt, other.trail[ti]? = some pt ∧ ti % 4 = 0 ∧
        (nx - pt.x).natAbs < 8 ∧ (ny - pt.y).natAbs < 8 ∧
        ¬(other.id = selfId ∧ ti ≥ other.trail.length - 10) := by
  unfold dangerScan stepIdx
  rw [List.any_eq_true]
  constructor
  · rintro ⟨ti, hmem, hb⟩
    rw [List.mem_filter, List.mem_range] at hmem
    cases h : other.trail[ti]? with
    | none => rw [h] at hb; simp at hb
    | some pt =>
        rw [h] at hb
        dsimp only at hb
        by_cases hprox : (nx - pt.x).natAbs < 8 ∧ (ny - pt.y).natAbs < 8
        · rw [if_pos hprox] at hb
          by_cases hown : (other.id == selfId) = true ∧ ti ≥ other.trail.length - 10
          · rw [if_pos hown] at hb
            exact absurd hb (by simp)
          · refine ⟨ti, pt, h, by simpa using hmem.2, hprox.1, hprox.2, ?_⟩
            rintro ⟨he, hr⟩
            exact hown ⟨by simpa using he, hr⟩
        · rw [if_neg hprox] at hb
          exact absurd hb (by simp)
  · rintro ⟨ti, pt, h, hmod, h8x, h8y, hskip⟩
    refine ⟨ti, ?_, ?_⟩
    · rw [List.mem_filter, List.mem_range]
      rcases List.getElem?_eq_some.mp h with ⟨hlt, _⟩
      exact ⟨hlt, by simpa using hmod⟩
    · rw [h]
      dsimp only
      have hown : ¬((other.id == selfId) = true ∧ ti ≥ other.trail.length - 10) := by
        rintro ⟨hb, hr⟩
        exact hskip ⟨by simpa using hb, hr⟩
      rw [if_neg hown, if_pos ⟨h8x, h8y⟩]

/-- C10: a candidate position is dangerous for the re-deciding bot iff some
trail point at an index divisible by 4 (the scan steps by 4) lies within the
8-unit box `|Δx| < 8 ∧ |Δy| < 8`, excluding the bot's own last-10
grace-window points; points at other indices never influence the outcome. -/
theorem C10_danger_stride (ctx : List Player) (selfId : String) (nx ny : Int) :
    dangerAt ctx selfId nx ny = true ↔
      ∃ other ∈ ctx, ∃ ti pt, other.trail[ti]? = some pt ∧ ti % 4 = 0 ∧
        (nx - pt.x).natAbs < 8 ∧ (ny - pt.y).natAbs < 8 ∧
        ¬(other.id = selfId ∧ ti ≥ other.trail.length - 10) := by
  unfold dangerAt
  rw [List.any_eq_true]
  constructor
  · rintro ⟨other, hmem, hs⟩
    exact ⟨other, hmem, dangerScan_iff.mp hs⟩
  · rintro ⟨other, hmem, hs⟩
    exact ⟨other, hmem, dangerScan_iff.mpr hs⟩

/-!
## C3 — the self-collision grace window
-/

/-- C3: in the collision check, an own trail entry with index in the last 10
never passes the kill test (and a bucket of only such entries leaves the
player untouched), while an own entry older than the last 10 that the lookup
returns (same cell, hence within 6 units on integer coordinates) always
passes the kill test and kills the alive player. -/
theorem C3_grace_window (ps : List Player) (p : Player) :
    (∀ t : Entry, t.ownerId = p.id → t.idx ≥ p.trail.length - 10 →
      killTest p t = false) ∧
    ((∀ t ∈ bucket ps p.x p.y, t.ownerId = p.id ∧ t.idx ≥ p.trail.length - 10) →
      collideP ps p = p) ∧
    (∀ t ∈ bucket ps p.x p.y, t.ownerId = p.id → t.idx < p.trail.length - 10 →
      killTest p t = true) ∧
    (p.alive = true → (∃ t ∈ bucket ps p.x p.y, killTest p t = true) →
      (collideP ps p).alive = false) := by
  have h1 : ∀ t : Entry, t.ownerId = p.id → t.idx ≥ p.trail.length - 10 →
      killTest p t = false := by
    intro t ho hi
    unfold killTest
    rw [if_pos ⟨by simpa using ho, by simpa using hi⟩]
  refine ⟨h1, ?_, ?_, ?_⟩
  · intro h
    unfold collideP
    have hnone : (bucket ps p.x p.y).find? (killTest p) = none :=
      List.find?_eq_none.mpr fun t ht => by
        rcases h t ht with ⟨ho, hi⟩
        simp [h1 t ho hi]
    rw [hnone]
    split <;> rfl
  · intro t ht ho hi
    rcases mem_bucket.mp ht with ⟨_, hcell⟩
    rw [Prod.ext_iff] at hcell
    have hx := abs_sub_lt_of_fdiv_eq hcell.1
    have hy := abs_sub_lt_of_fdiv_eq hcell.2
    unfold killTest
    rw [if_neg]
    · simp only [Bool.and_eq_true, decide_eq_true_eq]
      omega
    · rintro ⟨_, hge⟩
      omega
  · exact collideP_killed

/-- Witness for C3 at a concrete player whose 12-point trail sits on its own
position: the grace-window entry (index 11) is skipped, the old entry
(index 0) passes the kill test, and the collision step kills the player. -/
theorem C3_grace_window_witness :
    killTest ⟨"A", "A", "c", 0, 0, Dir.right,
        List.replicate 12 ⟨0, 0⟩, true, false, 0, 300, none, false⟩
      ⟨"A", 11, 0, 0⟩ = false ∧
    killTest ⟨"A", "A", "c", 0, 0, Dir.right,
        List.replicate 12 ⟨0, 0⟩, true, false, 0, 300, none, false⟩
      ⟨"A", 0, 0, 0⟩ = true ∧
    (collideP [⟨"A", "A", "c", 0, 0, Dir.right,
        List.replicate 12 ⟨0, 0⟩, true, false, 0, 300, none, false⟩]
      ⟨"A", "A", "c", 0, 0, Dir.right,
        List.replicate 12 ⟨0, 0⟩, true, false, 0, 300, none, false⟩).alive = false := by
  refine ⟨(C3_grace_window [] _).1 _ rfl (by decide), ?_, ?_⟩
  · exact (C3_grace_window
      [⟨"A", "A", "c", 0, 0, Dir.right,
        List.replicate 12 ⟨0, 0⟩, true, false, 0, 300, none, false⟩] _).2.2.1
      ⟨"A", 0, 0, 0⟩ (by decide) rfl (by decide)
  · exact (C3_grace_window _ _).2.2.2 rfl ⟨⟨"A", 0, 0, 0⟩, by decide, by decide⟩

/-!
## C6 — bot candidate order
-/

/-- Dropping the elements equal to `d` from the searched list does not change
`find?` when `d` itself fails the predicate. -/
theorem find?_filter_ne (q : Dir → Bool) (d : Dir) (hd : q d = false) :
    ∀ l : List Dir, (l.filter (fun x => x != d)).find? q = l.find? q := by
  intro l
  induction l with
  | nil => rfl
  | cons x xs ih =>
      by_cases hx : x = d
      · subst hx
        rw [List.filter_cons_of_neg (by simp), ih, List.find?_cons_of_neg _ (by simp [hd])]
      · rw [List.filter_cons_of_pos (by simpa using hx)]
        cases hq : q x with
        | true => rw [List.find?_cons_of_pos _ hq, List.find?_cons_of_pos _ hq]
        | false =>
            rw [List.find?_cons_of_neg _ (by simp [hq]), List.find?_cons_of_neg _ (by simp [hq]), ih]

/-- The source candidate list `p.dir :: [up,down,left,right]` selects the same
first qualifying direction as the deduplicated list
`p.dir ::` (remaining cardinals in fixed order). -/
theorem find?_cons_filter (q : Dir → Bool) (d : Dir) (l : List Dir) :
    (d :: l.filter (fun x => x != d)).find? q = (d :: l).find? q := by
  cases hq : q d with
  | true => rw [List.find?_cons_of_pos _ hq, List.find?_cons_of_pos _ hq]
  | false =>
      rw [List.find?_cons_of_neg _ (by simp [hq]), List.find?_cons_of_neg _ (by simp [hq]),
        find?_filter_ne q d hq]

/-- C6 (amended: the candidate-order selection holds for the `MatchRooms.js`
bot re-decision only; the `server.js` variant re-decides randomly with no
candidate scan, see the counterexample below): when a bot's decision
countdown exceeds its interval, the new heading is the first direction of
the list "current heading, then the remaining cardinals in the fixed order
up, down, left, right" whose one-step projection stays in bounds with no
dangerous trail match; if no candidate qualifies the heading is unchanged. -/
theorem C6_bot_candidates (rnd : String → Int) (ctx : List Player) (p : Player)
    (_hbot : p.isBot = true) (htrig : p.lastDecision + tickMs > p.decisionCooldown) :
    (botStep rnd ctx p).dir =
      ((p.dir :: cardinals.filter (fun x => x != p.dir)).find?
        (qualifies ctx p)).getD p.dir ∧
    ((∀ d, qualifies ctx p d = false) → (botStep rnd ctx p).dir = p.dir) := by
  have hq : qualifies ctx { p with lastDecision := 0, decisionCooldown := rnd p.id } =
      qualifies ctx p := rfl
  have hmain : (botStep rnd ctx p).dir =
      ((p.dir :: cardinals).find? (qualifies ctx p)).getD p.dir := by
    unfold botStep chooseDir candDirs
    dsimp only
    rw [if_pos htrig, hq]
    cases hfind : (p.dir :: cardinals).find? (qualifies ctx p) with
    | some d => rfl
    | none => rfl
  refine ⟨by rw [hmain, find?_cons_filter], ?_⟩
  intro hall
  rw [hmain, List.find?_eq_none.mpr fun d _ => by simp [hall d]]
  rfl

/-- Witness for C6: a bot against the right wall heading `right` with its
countdown expired turns to the first qualifying candidate, `up`. -/
theorem C6_bot_candidates_witness :
    (botStep (fun _ => 300)
        [⟨"Z", "Z", "c", 1198, 100, Dir.right, [], true, true, 280, 300, none, false⟩]
        ⟨"Z", "Z", "c", 1198, 100, Dir.right, [], true, true, 280, 300, none, false⟩).dir =
      Dir.up := by
  rw [(C6_bot_candidates (fun _ => 300)
      [⟨"Z", "Z", "c", 1198, 100, Dir.right, [], true, true, 280, 300, none, false⟩]
      ⟨"Z", "Z", "c", 1198, 100, Dir.right, [], true, true, 280, 300, none, false⟩
      rfl (by decide)).1]
  decide

/-- The random draws consumed by one triggered re-decision of the
`server.js` bot AI: the fresh cooldown (`randInt(200,700)`), the branch coin
(`Math.random() < 0.7`) and the random cardinal index (`randInt(0,3)`). -/
structure SRnd where
  cooldown : Int
  hot : Bool
  card : Fin 4
deriving DecidableEq, Repr

/-- Bot re-decision of the `server.js` variant (lines 147–162): advance the
countdown; past the cooldown, reset it, draw a fresh cooldown, and either
assign a uniformly random cardinal (`r < 0.7`) or head toward the horizontal
center (`p.x > PLAY_AREA.w/2 ? 'left' : 'right'`).  There is no candidate
order, no bounds check and no danger scan in this variant. -/
def serverBotStep (o : SRnd) (p : Player) : Player :=
  let ld := p.lastDecision + tickMs
  if ld > p.decisionCooldown then
    let p1 := { p with lastDecision := 0, decisionCooldown := o.cooldown }
    if o.hot then { p1 with dir := cardinals.get (o.card.cast (by decide)) }
    else { p1 with dir := if p.x > playW / 2 then Dir.left else Dir.right }
  else { p with lastDecision := ld }

/-- Counterexample to C6 as stated: the claim also cites the `server.js`
re-decision, but there the selection rule fails.  For this bot at x = 700
with an expired countdown and the center-seek draw, the claimed rule would
keep the current heading `right` (its projection is in bounds and there are
no trails, so it is the first qualifying candidate), yet the code assigns
`left`. -/
theorem C6_counterexample :
    (serverBotStep ⟨300, false, 0⟩
      ⟨"Z", "Z", "c", 700, 100, Dir.right, [], true, true, 280, 300, none, false⟩).dir
        = Dir.left ∧
    ((Dir.right :: cardinals.filter (fun x => x != Dir.right)).find?
      (qualifies
        [⟨"Z", "Z", "c", 700, 100, Dir.right, [], true, true, 280, 300, none, false⟩]
        ⟨"Z", "Z", "c", 700, 100, Dir.right, [], true, true, 280, 300, none, false⟩)).getD
      Dir.right = Dir.right ∧
    Dir.left ≠ Dir.right := by
  decide

/-!
## C4 — dead entities are frozen
-/

/-- The movement loop threads the processed prefix; a not-alive element is
carried through unchanged at its position. -/
theorem moveGo_spec (rnd : String → Int) :
    ∀ pending done : List Player, ∃ tl,
      moveGo rnd done pending = done ++ tl ∧ tl.length = pending.length ∧
      ∀ (i : Nat) (q : Player), pending[i]? = some q → q.alive = false →
        tl[i]? = some q := by
  intro pending
  induction pending with
  | nil => intro done; exact ⟨[], by simp [moveGo], rfl, by simp⟩
  | cons p rest ih =>
      intro done
      cases ha : p.alive with
      | true =>
          obtain ⟨tl', h1, h2, h3⟩ := ih (done ++ [moveP rnd (done ++ p :: rest) p])
          refine ⟨moveP rnd (done ++ p :: rest) p :: tl', ?_, by simp [h2], ?_⟩
          · unfold moveGo
            rw [ha, if_pos rfl, h1, List.append_assoc]
            rfl
          · intro i q hq hd
            cases i with
            | zero =>
                simp only [List.getElem?_cons_zero, Option.some.injEq] at hq
                rw [← hq] at hd
                rw [hd] at ha
                cases ha
            | succ j =>
                rw [List.getElem?_cons_succ]
                exact h3 j q (by simpa using hq) hd
      | false =>
          obtain ⟨tl', h1, h2, h3⟩ := ih (done ++ [p])
          refine ⟨p :: tl', ?_, by simp [h2], ?_⟩
          · unfold moveGo
            rw [ha]
            simp only [Bool.false_eq_true, if_false]
            rw [h1, List.append_assoc]
            rfl
          · intro i q hq hd
            cases i with
            | zero => simpa using hq
            | succ j =>
                rw [List.getElem?_cons_succ]
                exact h3 j q (by simpa using hq) hd

/-- A not-alive player is untouched by the movement phase. -/
theorem movePhase_dead {rnd : String → Int} {ps : List Player} {i : Nat} {p : Player}
    (h : ps[i]? = some p) (hd : p.alive = false) :
    (movePhase rnd ps)[i]? = some p := by
  obtain ⟨tl, h1, _, h3⟩ := moveGo_spec rnd ps []
  unfold movePhase
  rw [h1]
  simpa using h3 i p h hd

/-- A not-alive player is untouched by the collision step. -/
theorem collideP_dead {ps : List Player} {p : Player} (hd : p.alive = false) :
    collideP ps p = p := by
  unfold collideP
  rw [hd]
  rfl

/-- A not-alive player is untouched by a full tick. -/
theorem tickPlayers_dead {rnd : String → Int} {ps : List Player} {i : Nat} {p : Player}
    (h1 : ps[i]? = some p) (h2 : p.alive = false) :
    (tickPlayers rnd ps)[i]? = some p := by
  unfold tickPlayers collidePhase
  rw [List.getElem?_map, movePhase_dead h1 h2]
  simp [collideP_dead h2]

/-- C4: an entity whose alive flag is false at the start of a tick keeps its
position, trail and dead flag through that tick and every subsequent tick —
it is never moved or revived. -/
theorem C4_dead_frozen (rnds : Nat → String → Int) (ps : List Player) (n i : Nat)
    (p : Player) (h1 : ps[i]? = some p) (h2 : p.alive = false) :
    ∃ q, (pureIter rnds ps n)[i]? = some q ∧ q.x = p.x ∧ q.y = p.y ∧
      q.trail = p.trail ∧ q.alive = false := by
  suffices h : (pureIter rnds ps n)[i]? = some p by
    exact ⟨p, h, rfl, rfl, rfl, h2⟩
  induction n generalizing rnds ps with
  | zero => simpa [pureIter] using h1
  | succ m ih =>
      rw [pureIter]
      exact ih _ _ (tickPlayers_dead h1 h2)

/-- Witness for C4: a concrete dead entity sitting next to a live one is
bit-for-bit frozen across three ticks. -/
theorem C4_dead_frozen_witness :
    ∃ q, (pureIter (fun _ _ => 300)
        [⟨"D", "D", "c", 700, 300, Dir.left, [⟨700, 300⟩], false, false, 0, 300, none, false⟩,
         ⟨"A", "A", "c", 100, 100, Dir.right, [], true, false, 0, 300, none, false⟩]
        3)[0]? = some q ∧
      q.x = 700 ∧ q.y = 300 ∧ q.trail = [⟨700, 300⟩] ∧ q.alive = false := by
  exact C4_dead_frozen (fun _ _ => 300)
    [⟨"D", "D", "c", 700, 300, Dir.left, [⟨700, 300⟩], false, false, 0, 300, none, false⟩,
     ⟨"A", "A", "c", 100, 100, Dir.right, [], true, false, 0, 300, none, false⟩]
    3 0 ⟨"D", "D", "c", 700, 300, Dir.left, [⟨700, 300⟩], false, false, 0, 300, none, false⟩
    (by decide) rfl

/-- Witness for C5: an entity at x = 1198 heading right is clamped onto the
right wall by the move step and then killed by the out-of-bounds check. -/
theorem C5_clamp_vs_oob_witness :
    (serverOob (serverMove
      ⟨"A", "A", "c", 1198, 100, Dir.right, [], true, false, 0, 300, none, false⟩)).alive
      = false := by
  exact (C5_clamp_vs_oob
    ⟨"A", "A", "c", 1198, 100, Dir.right, [], true, false, 0, 300, none, false⟩).2.2.2
    (Or.inr (Or.inl (by decide)))

/-!
## C1 — the Running→Ended transition
-/

/-- Once the interval is cleared nothing ever runs again: a stopped match
emits no snapshots. -/
theorem emitTrace_stopped {s : MState} (hs : s.running = false) :
    ∀ (n : Nat) (rnds : Nat → String → Int),
      emitTrace rnds s n = List.replicate n none := by
  intro n
  induction n generalizing s with
  | zero => intro rnds; rfl
  | succ m ih =>
      intro rnds
      rw [emitTrace]
      have hstep : matchStep (rnds 0) s = (s, none) := by
        unfold matchStep
        rw [hs]
        rfl
      rw [hstep]
      simp only [List.replicate_succ, List.cons.injEq]
      exact ⟨trivial, ih hs _⟩

/-- Closed form of the emission at index `i` of a trace started in the
running state: while every earlier tick left more than one entity alive the
loop is still scheduled and tick `i` emits a snapshot of the processed
players, terminal exactly when the processed alive count is ≤ 1; otherwise
the loop has stopped and nothing is emitted. -/
theorem emitTrace_get (i : Nat) :
    ∀ (n : Nat) (rnds : Nat → String → Int) (ps : List Player), i < n →
      (emitTrace rnds ⟨ps, true⟩ n)[i]? =
        some (if ∀ k < i, 1 < aliveCount (pureIter rnds ps (k + 1))
              then some ⟨exportState (pureIter rnds ps (i + 1)),
                         decide (aliveCount (pureIter rnds ps (i + 1)) ≤ 1)⟩
              else none) := by
  induction i with
  | zero =>
      intro n rnds ps hn
      obtain ⟨m, rfl⟩ : ∃ m, n = m + 1 := ⟨n - 1, by omega⟩
      rw [emitTrace]
      simp only [List.getElem?_cons_zero, Option.some.injEq]
      rw [if_pos fun k hk => absurd hk (Nat.not_lt_zero k)]
      rw [show pureIter rnds ps (0 + 1) = tickPlayers (rnds 0) ps from rfl]
      unfold matchStep
      by_cases hal : aliveCount (tickPlayers (rnds 0) ps) ≤ 1
      · simp [hal]
      · simp [hal]
  | succ i ih =>
      intro n rnds ps hn
      obtain ⟨m, rfl⟩ : ∃ m, n = m + 1 := ⟨n - 1, by omega⟩
      have him : i < m := by omega
      rw [emitTrace]
      simp only [List.getElem?_cons_succ]
      by_cases hal : aliveCount (tickPlayers (rnds 0) ps) ≤ 1
      · have hstop : (matchStep (rnds 0) ⟨ps, true⟩).1 =
            ⟨tickPlayers (rnds 0) ps, false⟩ := by
          unfold matchStep
          simp [hal]
        rw [hstop, emitTrace_stopped rfl m]
        have hrep : (List.replicate m (none : Option Snap))[i]? = some none := by
          rw [List.getElem?_replicate]
          simp [him]
        rw [hrep, if_neg]
        intro hall
        have h0 := hall 0 (by omega)
        have : pureIter rnds ps 1 = tickPlayers (rnds 0) ps := rfl
        rw [this] at h0
        omega
      · have hrun : (matchStep (rnds 0) ⟨ps, true⟩).1 =
            ⟨tickPlayers (rnds 0) ps, true⟩ := by
          unfold matchStep
          simp [hal]
        rw [hrun, ih m (fun k => rnds (k + 1)) (tickPlayers (rnds 0) ps) him]
        have hcond : (∀ k < i, 1 < aliveCount
              (pureIter (fun k => rnds (k + 1)) (tickPlayers (rnds 0) ps) (k + 1))) ↔
            (∀ k < i + 1, 1 < aliveCount (pureIter rnds ps (k + 1))) := by
          constructor
          · intro h k hk
            cases k with
            | zero =>
                show 1 < aliveCount (pureIter rnds ps 1)
                have : pureIter rnds ps 1 = tickPlayers (rnds 0) ps := rfl
                rw [this]
                omega
            | succ j => exact h j (by omega)
          · intro h k hk
            exact h (k + 1) (by omega)
        rw [show pureIter rnds ps (i + 1 + 1) =
              pureIter (fun k => rnds (k + 1)) (tickPlayers (rnds 0) ps) (i + 1) by
            rw [pureIter]]
        rw [if_congr hcond rfl rfl]

/-- C1: in any run started in the Running state, a terminal snapshot is
emitted exactly at the first tick whose processed alive count is ≤ 1, that
tick stops the loop so that no later tick emits anything at all (in
particular never a non-terminal snapshot), and a non-terminal snapshot at
tick `i` happens exactly when every tick up to and including `i` left more
than one entity alive. -/
theorem C1_terminal_transition (ps : List Player) (rnds : Nat → String → Int) (n : Nat) :
    (∀ i j, i < j → j < n →
      (∃ e, (emitTrace rnds ⟨ps, true⟩ n)[i]? = some (some ⟨e, true⟩)) →
      (emitTrace rnds ⟨ps, true⟩ n)[j]? = some none) ∧
    (∀ i, i < n →
      ((∃ e, (emitTrace rnds ⟨ps, true⟩ n)[i]? = some (some ⟨e, true⟩)) ↔
        (aliveCount (pureIter rnds ps (i + 1)) ≤ 1 ∧
          ∀ k < i, 1 < aliveCount (pureIter rnds ps (k + 1))))) ∧
    (∀ i, i < n →
      ((∃ e, (emitTrace rnds ⟨ps, true⟩ n)[i]? = some (some ⟨e, false⟩)) ↔
        (∀ k ≤ i, 1 < aliveCount (pureIter rnds ps (k + 1))))) := by
  have hterm : ∀ i, i < n →
      ((∃ e, (emitTrace rnds ⟨ps, true⟩ n)[i]? = some (some ⟨e, true⟩)) ↔
        (aliveCount (pureIter rnds ps (i + 1)) ≤ 1 ∧
          ∀ k < i, 1 < aliveCount (pureIter rnds ps (k + 1)))) := by
    intro i hi
    rw [emitTrace_get i n rnds ps hi]
    by_cases hc : ∀ k < i, 1 < aliveCount (pureIter rnds ps (k + 1))
    · rw [if_pos hc]
      simp only [Option.some.injEq, Snap.mk.injEq]
      constructor
      · rintro ⟨e, he, hd⟩
        exact ⟨by simpa using hd.symm, hc⟩
      · rintro ⟨h1, _⟩
        exact ⟨exportState (pureIter rnds ps (i + 1)), rfl, by simpa using h1⟩
    · rw [if_neg hc]
      constructor
      · rintro ⟨e, he⟩
        simp at he
      · rintro ⟨_, h2⟩
        exact absurd h2 hc
  refine ⟨?_, hterm, ?_⟩
  · intro i j hij hjn hex
    obtain ⟨h1, _⟩ := (hterm i (by omega)).mp hex
    rw [emitTrace_get j n rnds ps hjn, if_neg]
    intro hall
    have := hall i hij
    omega
  · intro i hi
    rw [emitTrace_get i n rnds ps hi]
    by_cases hc : ∀ k < i, 1 < aliveCount (pureIter rnds ps (k + 1))
    · rw [if_pos hc]
      simp only [Option.some.injEq, Snap.mk.injEq]
      constructor
      · rintro ⟨e, he, hd⟩
        intro k hk
        rcases Nat.lt_or_ge k i with h | h
        · exact hc k h
        · have hki : k = i := by omega
          subst hki
          have : ¬ aliveCount (pureIter rnds ps (k + 1)) ≤ 1 := by
            simpa using hd.symm
          omega
      · intro hall
        refine ⟨exportState (pureIter rnds ps (i + 1)), rfl, ?_⟩
        have := hall i (le_refl i)
        simp [decide_eq_false]
        omega
    · rw [if_neg hc]
      constructor
      · rintro ⟨e, he⟩
        simp at he
      · intro hall
        exact absurd (fun k hk => hall k (le_of_lt hk)) hc

/-- Witness for C1: a one-player match ends on its very first tick — the
tick-0 emission is terminal and tick 1 emits nothing. -/
theorem C1_terminal_transition_witness :
    (∃ e, (emitTrace (fun _ _ => 300)
      ⟨[⟨"A", "A", "c", 100, 100, Dir.right, [], true, false, 0, 300, none, false⟩],
        true⟩ 2)[0]? = some (some ⟨e, true⟩)) ∧
    (emitTrace (fun _ _ => 300)
      ⟨[⟨"A", "A", "c", 100, 100, Dir.right, [], true, false, 0, 300, none, false⟩],
        true⟩ 2)[1]? = some none := by
  have h := C1_terminal_transition
    [⟨"A", "A", "c", 100, 100, Dir.right, [], true, false, 0, 300, none, false⟩]
    (fun _ _ => 300) 2
  have hterm := (h.2.1 0 (by omega)).mpr
    ⟨by decide, fun k hk => absurd hk (Nat.not_lt_zero k)⟩
  exact ⟨hterm, h.1 0 1 (by omega) (by omega) hterm⟩

/-!
## C9 — head-on collision within 5 ticks

Scenario scaffolding: two human entities on the same row, 40 units apart,
moving toward each other at speed 4.
-/

/-- An entry skipped by the grace window fails the kill test. -/
theorem killTest_skip {p : Player} {t : Entry} (ho : t.ownerId = p.id)
    (hi : t.idx ≥ p.trail.length - 10) : killTest p t = false := by
  unfold killTest
  rw [if_pos ⟨by simpa using ho, by simpa using hi⟩]

/-- An entry outside the 6-unit box fails the kill test. -/
theorem killTest_far {p : Player} {t : Entry}
    (h : ¬((p.x - t.x).natAbs < 6 ∧ (p.y - t.y).natAbs < 6)) :
    killTest p t = false := by
  by_contra hc
  rw [Bool.not_eq_false] at hc
  unfold killTest at hc
  split at hc
  · exact Bool.false_ne_true hc
  · simp only [Bool.and_eq_true, decide_eq_true_eq] at hc
    exact h hc

/-- Rightward trail after `t` ticks: points `x0 + 4·1, …, x0 + 4·t`. -/
def scenTrailR (x0 y0 : Int) : Nat → List Pt
  | 0 => []
  | t + 1 => scenTrailR x0 y0 t ++ [⟨x0 + 4 * ((t : Int) + 1), y0⟩]

/-- Leftward trail after `t` ticks: points `x0 - 4·1, …, x0 - 4·t`. -/
def scenTrailL (x0 y0 : Int) : Nat → List Pt
  | 0 => []
  | t + 1 => scenTrailL x0 y0 t ++ [⟨x0 - 4 * ((t : Int) + 1), y0⟩]

/-- The rightward-moving entity after `t` ticks of the scenario. -/
def scenR (pa : Player) (t : Nat) : Player :=
  { pa with x := pa.x + 4 * (t : Int), trail := scenTrailR pa.x pa.y t }

/-- The leftward-moving entity after `t` ticks of the scenario. -/
def scenL (pb : Player) (t : Nat) : Player :=
  { pb with x := pb.x - 4 * (t : Int), trail := scenTrailL pb.x pb.y t }

theorem scenTrailR_length (x0 y0 : Int) : ∀ t, (scenTrailR x0 y0 t).length = t := by
  intro t
  induction t with
  | zero => rfl
  | succ n ih => simp [scenTrailR, ih]

theorem scenTrailL_length (x0 y0 : Int) : ∀ t, (scenTrailL x0 y0 t).length = t := by
  intro t
  induction t with
  | zero => rfl
  | succ n ih => simp [scenTrailL, ih]

theorem scenTrailR_get (x0 y0 : Int) :
    ∀ t i, (scenTrailR x0 y0 t)[i]? =
      if i < t then some ⟨x0 + 4 * ((i : Int) + 1), y0⟩ else none := by
  intro t
  induction t with
  | zero => intro i; simp [scenTrailR]
  | succ n ih =>
      intro i
      unfold scenTrailR
      rw [List.getElem?_append, scenTrailR_length]
      rcases Nat.lt_trichotomy i n with hlt | heq | hgt
      · rw [if_pos hlt, ih, if_pos hlt, if_pos (by omega)]
      · subst heq
        rw [if_neg (by omega), Nat.sub_self]
        simp
      · rw [if_neg (by omega), if_neg (by omega)]
        have h1 : i - n ≥ 1 := by omega
        rcases Nat.exists_eq_add_of_le h1 with ⟨j, hj⟩
        rw [Nat.add_comm] at hj
        rw [hj]
        simp

theorem scenTrailL_get (x0 y0 : Int) :
    ∀ t i, (scenTrailL x0 y0 t)[i]? =
      if i < t then some ⟨x0 - 4 * ((i : Int) + 1), y0⟩ else none := by
  intro t
  induction t with
  | zero => intro i; simp [scenTrailL]
  | succ n ih =>
      intro i
      unfold scenTrailL
      rw [List.getElem?_append, scenTrailL_length]
      rcases Nat.lt_trichotomy i n with hlt | heq | hgt
      · rw [if_pos hlt, ih, if_pos hlt, if_pos (by omega)]
      · subst heq
        rw [if_neg (by omega), Nat.sub_self]
        simp
      · rw [if_neg (by omega), if_neg (by omega)]
        have h1 : i - n ≥ 1 := by omega
        rcases Nat.exists_eq_add_of_le h1 with ⟨j, hj⟩
        rw [Nat.add_comm] at hj
        rw [hj]
        simp

/-- A non-bot heading right with clearance moves 4 right and appends the new
position to its trail. -/
theorem moveP_human_right (rnd : String → Int) (ctx : List Player) {p : Player}
    (hbot : p.isBot = false) (hdir : p.dir = Dir.right)
    (h1 : 0 ≤ p.x + 4) (h2 : p.x + 4 ≤ 1200) (h3 : 0 ≤ p.y) (h4 : p.y ≤ 800)
    (h5 : p.trail.length + 1 ≤ 800) :
    moveP rnd ctx p = { p with x := p.x + 4, trail := p.trail ++ [⟨p.x + 4, p.y⟩] } := by
  unfold moveP
  rw [hbot]
  simp only [Bool.false_eq_true, if_false]
  rw [hdir]
  dsimp only
  have hx : max 0 (min playW (p.x + speed)) = p.x + 4 := by
    unfold playW speed; omega
  have hy : max 0 (min playH p.y) = p.y := by
    unfold playH; omega
  rw [hx, hy]
  rw [if_neg (by rw [List.length_append]; unfold trailKeep; simp; omega)]
  rw [hbot]

/-- A non-bot heading left with clearance moves 4 left and appends the new
position to its trail. -/
theorem moveP_human_left (rnd : String → Int) (ctx : List Player) {p : Player}
    (hbot : p.isBot = false) (hdir : p.dir = Dir.left)
    (h1 : 0 ≤ p.x - 4) (h2 : p.x - 4 ≤ 1200) (h3 : 0 ≤ p.y) (h4 : p.y ≤ 800)
    (h5 : p.trail.length + 1 ≤ 800) :
    moveP rnd ctx p = { p with x := p.x - 4, trail := p.trail ++ [⟨p.x - 4, p.y⟩] } := by
  unfold moveP
  rw [hbot]
  simp only [Bool.false_eq_true, if_false]
  rw [hdir]
  dsimp only
  have hx : max 0 (min playW (p.x - speed)) = p.x - 4 := by
    unfold playW speed; omega
  have hy : max 0 (min playH p.y) = p.y := by
    unfold playH; omega
  rw [hx, hy]
  rw [if_neg (by rw [List.length_append]; unfold trailKeep; simp; omega)]
  rw [hbot]

/-- The movement phase over a pair of alive entities. -/
theorem movePhase_pair (rnd : String → Int) (a b : Player)
    (ha : a.alive = true) (hb : b.alive = true) :
    movePhase rnd [a, b] =
      [moveP rnd [a, b] a, moveP rnd [moveP rnd [a, b] a, b] b] := by
  unfold movePhase moveGo moveGo moveGo
  rw [ha, hb]
  simp

/-- The occupancy entries of a two-player state. -/
theorem allEntries_pair (a b : Player) :
    allEntries [a, b] = entriesOf a.id 0 a.trail ++ entriesOf b.id 0 b.trail := by
  simp [allEntries]

/-- The head-on scenario of the specification: two human entities on the same
row of the 1200×800 play area, 40 units apart, facing each other, with fresh
trails and clearance from the vertical walls. -/
def scenOK (pa pb : Player) : Prop :=
  pa.dir = Dir.right ∧ pb.dir = Dir.left ∧ pa.alive = true ∧ pb.alive = true ∧
  pa.isBot = false ∧ pb.isBot = false ∧ pa.trail = [] ∧ pb.trail = [] ∧
  pb.x = pa.x + 40 ∧ pb.y = pa.y ∧ 0 ≤ pa.x ∧ pa.x + 40 ≤ 1200 ∧
  0 ≤ pa.y ∧ pa.y ≤ 800 ∧ pa.id ≠ pb.id

theorem scenR_move (rnd : String → Int) (ctx : List Player) (pa pb : Player)
    (h : scenOK pa pb) (t : Nat) (ht : t ≤ 4) :
    moveP rnd ctx (scenR pa t) = scenR pa (t + 1) := by
  obtain ⟨hadir, _, _, _, habot, _, _, _, _, _, hx0, hx1, hy0, hy1, _⟩ := h
  have hxv : (scenR pa t).x = pa.x + 4 * (t : Int) := rfl
  have hyv : (scenR pa t).y = pa.y := rfl
  have htr : (scenR pa t).trail = scenTrailR pa.x pa.y t := rfl
  rw [moveP_human_right rnd ctx (show (scenR pa t).isBot = false from habot)
      (show (scenR pa t).dir = Dir.right from hadir)
      (by rw [hxv]; omega) (by rw [hxv]; omega)
      (by rw [hyv]; omega) (by rw [hyv]; omega)
      (by rw [htr, scenTrailR_length]; omega)]
  dsimp only [scenR]
  have harith : pa.x + 4 * (t : Int) + 4 = pa.x + 4 * ((t : Int) + 1) := by ring
  rw [harith]
  conv_rhs => rw [scenTrailR]
  push_cast
  rfl

theorem scenL_move (rnd : String → Int) (ctx : List Player) (pa pb : Player)
    (h : scenOK pa pb) (t : Nat) (ht : t ≤ 4) :
    moveP rnd ctx (scenL pb t) = scenL pb (t + 1) := by
  obtain ⟨_, hbdir, _, _, _, hbbot, _, _, hbx, hby, hx0, hx1, hy0, hy1, _⟩ := h
  have hxv : (scenL pb t).x = pb.x - 4 * (t : Int) := rfl
  have hyv : (scenL pb t).y = pb.y := rfl
  have htr : (scenL pb t).trail = scenTrailL pb.x pb.y t := rfl
  rw [moveP_human_left rnd ctx (show (scenL pb t).isBot = false from hbbot)
      (show (scenL pb t).dir = Dir.left from hbdir)
      (by rw [hxv]; omega) (by rw [hxv]; omega)
      (by rw [hyv]; omega) (by rw [hyv]; omega)
      (by rw [htr, scenTrailL_length]; omega)]
  dsimp only [scenL]
  have harith : pb.x - 4 * (t : Int) - 4 = pb.x - 4 * ((t : Int) + 1) := by ring
  rw [harith]
  conv_rhs => rw [scenTrailL]
  push_cast
  rfl

theorem scen_move_pair (rnd : String → Int) (pa pb : Player) (h : scenOK pa pb)
    (t : Nat) (ht : t ≤ 4) :
    movePhase rnd [scenR pa t, scenL pb t] = [scenR pa (t + 1), scenL pb (t + 1)] := by
  have haal : (scenR pa t).alive = true := h.2.2.1
  have hbal : (scenL pb t).alive = true := h.2.2.2.1
  rw [movePhase_pair rnd _ _ haal hbal,
    scenR_move rnd _ pa pb h t ht, scenL_move rnd _ pa pb h t ht]

theorem scen_nokill_A (pa pb : Player) (h : scenOK pa pb) (s : Nat) (hs : s ≤ 4) :
    ∀ e ∈ allEntries [scenR pa s, scenL pb s], killTest (scenR pa s) e = false := by
  obtain ⟨_, _, _, _, _, _, _, _, hbx, hby, _, _, _, _, _⟩ := h
  intro e he
  rw [allEntries_pair] at he
  rcases List.mem_append.mp he with hA | hB
  · rcases mem_entriesOf.mp hA with ⟨i, pt, hget, heq⟩
    subst heq
    apply killTest_skip rfl
    have hlen : (scenR pa s).trail.length = s := scenTrailR_length pa.x pa.y s
    simp only [hlen]
    omega
  · rcases mem_entriesOf.mp hB with ⟨i, pt, hget, heq⟩
    subst heq
    have hget2 : (scenTrailL pb.x pb.y s)[i]? = some pt := hget
    rw [scenTrailL_get] at hget2
    by_cases his : i < s
    · rw [if_pos his] at hget2
      rw [Option.some.injEq] at hget2
      apply killTest_far
      rintro ⟨hax, _⟩
      have hx1 : (scenR pa s).x = pa.x + 4 * (s : Int) := rfl
      rw [hx1, ← hget2] at hax
      simp only at hax
      omega
    · rw [if_neg his] at hget2
      cases hget2

theorem scen_nokill_B (pa pb : Player) (h : scenOK pa pb) (s : Nat) (hs : s ≤ 4) :
    ∀ e ∈ allEntries [scenR pa s, scenL pb s], killTest (scenL pb s) e = false := by
  obtain ⟨_, _, _, _, _, _, _, _, hbx, hby, _, _, _, _, _⟩ := h
  intro e he
  rw [allEntries_pair] at he
  rcases List.mem_append.mp he with hA | hB
  · rcases mem_entriesOf.mp hA with ⟨i, pt, hget, heq⟩
    subst heq
    have hget2 : (scenTrailR pa.x pa.y s)[i]? = some pt := hget
    rw [scenTrailR_get] at hget2
    by_cases his : i < s
    · rw [if_pos his] at hget2
      rw [Option.some.injEq] at hget2
      apply killTest_far
      rintro ⟨hax, _⟩
      have hx1 : (scenL pb s).x = pb.x - 4 * (s : Int) := rfl
      rw [hx1, ← hget2] at hax
      simp only at hax
      omega
    · rw [if_neg his] at hget2
      cases hget2
  · rcases mem_entriesOf.mp hB with ⟨i, pt, hget, heq⟩
    subst heq
    apply killTest_skip rfl
    have hlen : (scenL pb s).trail.length = s := scenTrailL_length pb.x pb.y s
    simp only [hlen]
    omega

/-- One safe tick of the scenario: both entities advance 4 units toward each
other and nobody dies while the gap is at least 8 units. -/
theorem scen_step (rnd : String → Int) (pa pb : Player) (h : scenOK pa pb)
    (t : Nat) (ht : t ≤ 3) :
    tickPlayers rnd [scenR pa t, scenL pb t] = [scenR pa (t + 1), scenL pb (t + 1)] := by
  unfold tickPlayers
  rw [scen_move_pair rnd pa pb h t (by omega)]
  unfold collidePhase
  simp only [List.map_cons, List.map_nil]
  rw [collideP_eq_self (scen_nokill_A pa pb h (t + 1) (by omega)),
    collideP_eq_self (scen_nokill_B pa pb h (t + 1) (by omega))]

/-- The fifth tick of the scenario: the two entities land on the same point
and the rightward mover dies on the leftward mover's freshest trail point. -/
theorem scen_kill (rnd : String → Int) (pa pb : Player) (h : scenOK pa pb) :
    ∃ q ∈ tickPlayers rnd [scenR pa 4, scenL pb 4], q.alive = false := by
  obtain ⟨_, _, haal, _, _, _, _, _, hbx, hby, _, _, _, _, hid⟩ := id h
  unfold tickPlayers
  rw [scen_move_pair rnd pa pb h 4 (by omega)]
  unfold collidePhase
  simp only [List.map_cons, List.map_nil]
  refine ⟨collideP [scenR pa 5, scenL pb 5] (scenR pa 5), by simp, ?_⟩
  apply collideP_killed (show (scenR pa 5).alive = true from haal)
  have hgetB : (scenL pb 5).trail[4]? = some ⟨pb.x - 20, pb.y⟩ := by
    have := scenTrailL_get pb.x pb.y 5 4
    rw [if_pos (by omega)] at this
    rw [show (scenL pb 5).trail = scenTrailL pb.x pb.y 5 from rfl, this]
    norm_num
  have hmem : (⟨(scenL pb 5).id, 0 + 4, pb.x - 20, pb.y⟩ : Entry) ∈
      entriesOf (scenL pb 5).id 0 (scenL pb 5).trail :=
    mem_entriesOf.mpr ⟨4, ⟨pb.x - 20, pb.y⟩, hgetB, rfl⟩
  refine ⟨⟨(scenL pb 5).id, 0 + 4, pb.x - 20, pb.y⟩, ?_, ?_⟩
  · apply mem_bucket.mpr
    constructor
    · rw [allEntries_pair]
      exact List.mem_append.mpr (Or.inr hmem)
    · have h1 : pb.x - 20 = (scenR pa 5).x := by
        show pb.x - 20 = pa.x + 4 * ((5 : Nat) : Int)
        push_cast
        omega
      have h2 : pb.y = (scenR pa 5).y := hby
      simp only
      rw [h1, h2]
  · unfold killTest
    rw [if_neg]
    · simp only [Bool.and_eq_true, decide_eq_true_eq]
      have h1 : (scenR pa 5).x = pa.x + 4 * ((5 : Nat) : Int) := rfl
      have h2 : (scenR pa 5).y = pa.y := rfl
      constructor
      · simp only [h1]
        push_cast
        omega
      · simp only [h2]
        omega
    · rintro ⟨hbq, _⟩
      simp only [beq_iff_eq] at hbq
      exact hid ((show (scenL pb 5).id = pb.id from rfl) ▸ hbq).symm

/-- Peeling one tick off an iterated run. -/
theorem pureIter_succ (rnds : Nat → String → Int) (ps : List Player) (n : Nat) :
    pureIter rnds ps (n + 1) =
      pureIter (fun k => rnds (k + 1)) (tickPlayers (rnds 0) ps) n := by
  rw [pureIter]

/-- C9: two entities on the same row of the play area, 40 units apart and
moving directly toward each other at 4 units per tick with unchanged
headings, produce at least one not-alive entity within ⌈40/8⌉ = 5 ticks. -/
theorem C9_head_on (rnds : Nat → String → Int) (pa pb : Player) (h : scenOK pa pb) :
    ∃ q ∈ pureIter rnds [pa, pb] 5, q.alive = false := by
  obtain ⟨_, _, _, _, _, _, hatr, hbtr, _, _, _, _, _, _, _⟩ := id h
  have ha0 : scenR pa 0 = pa := by
    unfold scenR
    rw [show pa.x + 4 * ((0 : Nat) : Int) = pa.x by push_cast; ring,
      show scenTrailR pa.x pa.y 0 = [] from rfl, ← hatr]
  have hb0 : scenL pb 0 = pb := by
    unfold scenL
    rw [show pb.x - 4 * ((0 : Nat) : Int) = pb.x by push_cast; ring,
      show scenTrailL pb.x pb.y 0 = [] from rfl, ← hbtr]
  have h0 : ([pa, pb] : List Player) = [scenR pa 0, scenL pb 0] := by
    rw [ha0, hb0]
  have s1 : tickPlayers (rnds 0) [scenR pa 0, scenL pb 0] = [scenR pa 1, scenL pb 1] := by
    simpa using scen_step (rnds 0) pa pb h 0 (by omega)
  have s2 : tickPlayers (rnds 1) [scenR pa 1, scenL pb 1] = [scenR pa 2, scenL pb 2] := by
    simpa using scen_step (rnds 1) pa pb h 1 (by omega)
  have s3 : tickPlayers (rnds 2) [scenR pa 2, scenL pb 2] = [scenR pa 3, scenL pb 3] := by
    simpa using scen_step (rnds 2) pa pb h 2 (by omega)
  have s4 : tickPlayers (rnds 3) [scenR pa 3, scenL pb 3] = [scenR pa 4, scenL pb 4] := by
    simpa using scen_step (rnds 3) pa pb h 3 (by omega)
  rw [h0, show (5 : Nat) = 4 + 1 from rfl, pureIter_succ, s1,
    show (4 : Nat) = 3 + 1 from rfl, pureIter_succ, s2,
    show (3 : Nat) = 2 + 1 from rfl, pureIter_succ, s3,
    show (2 : Nat) = 1 + 1 from rfl, pureIter_succ, s4,
    show (1 : Nat) = 0 + 1 from rfl, pureIter_succ, pureIter]
  exact scen_kill _ pa pb h

/-- Witness for C9: the concrete pair at (100, 100) and (140, 100). -/
theorem C9_head_on_witness :
    ∃ q ∈ pureIter (fun _ _ => 300)
      [⟨"A", "A", "c", 100, 100, Dir.right, [], true, false, 0, 300, none, false⟩,
       ⟨"B", "B", "c", 140, 100, Dir.left, [], true, false, 0, 300, none, false⟩] 5,
      q.alive = false := by
  exact C9_head_on (fun _ _ => 300)
    ⟨"A", "A", "c", 100, 100, Dir.right, [], true, false, 0, 300, none, false⟩
    ⟨"B", "B", "c", 140, 100, Dir.left, [], true, false, 0, 300, none, false⟩
    (by unfold scenOK; decide)

end Digibike
